import Mathlib

/-!
# Verification of the matching-seed game state machine

A shallow embedding of the core state machine of `src/src/lib.rs` (a
Seed/Elm-style memory matching game) together with proofs of the spec's
claims about it.

Embedding conventions:
* `Ulid` is modelled as `Nat` (the spec only requires unique, sortable ids).
* `BTreeMap<Ulid, Card>` is modelled as an association list
  `List (Nat × Card)`; the map invariants (unique keys, value id = key) are
  stated as hypotheses where a claim needs them.
* `rand`'s `SliceRandom::shuffle` (Fisher–Yates: for `i` from `len-1` down
  to `1`, swap slot `i` with a uniform draw in `0..=i`) is modelled with an
  explicit draw stream `rng : Nat → Nat`, reduced mod `i+1` at step `i`.
* Indexing `model.board[index]` panics in Rust on an out-of-range index;
  the embedding models this fallible access with `l[i]?` and leaves the
  model unchanged on `none` (no claim concerns out-of-range indices).
* Asynchronous image ingestion, drag-and-drop plumbing and the view are out
  of scope of the claims and are not embedded; `drop_zone_active` is kept
  as a field so that frame conditions are stated over the full model.
-/

/-- `enum CardState { FaceUp, FaceDown }` from the source. -/
inductive CardState where
  | FaceUp : CardState
  | FaceDown : CardState
deriving DecidableEq, Repr

/-- `struct Card { text: Option<String>, photo: Option<String>, id: Ulid }`. -/
structure Card where
  text : Option String
  photo : Option String
  id : Nat
deriving DecidableEq, Repr

/-- `struct PlayedCard { card: Card, displayed: CardState, matched: bool }`. -/
structure PlayedCard where
  card : Card
  displayed : CardState
  matched : Bool
deriving DecidableEq, Repr

/-- The application model (`struct Model` in the source). -/
structure Model where
  game_started : Bool
  words_list : List (Nat × Card)
  board : List PlayedCard
  last : Option Nat
  needs_reset : Bool
  drop_zone_active : Bool
deriving DecidableEq, Repr

/-- `Model::default()`. -/
def Model.default : Model :=
  { game_started := false
    words_list := []
    board := []
    last := none
    needs_reset := false
    drop_zone_active := false }

/-- `Model::all_face_down`: turn every board slot face down, clear
`needs_reset` and `last` (lines 66–72 of `lib.rs`). -/
def Model.all_face_down (m : Model) : Model :=
  { m with
    board := m.board.map (fun c => { c with displayed := CardState.FaceDown })
    needs_reset := false
    last := none }

/-- Swap the elements at positions `i` and `j` of a list (Rust's
`slice::swap`); out-of-range indices leave the list unchanged. -/
def swapList {α : Type} (l : List α) (i j : Nat) : List α :=
  match l[i]?, l[j]? with
  | some a, some b => (l.set i b).set j a
  | _, _ => l

/-- The Fisher–Yates loop of `rand`'s `SliceRandom::shuffle`: perform the
swaps at indices `i, i-1, …, 1`, drawing `rng k % (k+1)` as the uniform
value in `0..=k` at step `k`. -/
def shuffleFrom {α : Type} (rng : Nat → Nat) : Nat → List α → List α
  | 0, l => l
  | Nat.succ i, l => shuffleFrom rng i (swapList l (i + 1) (rng (i + 1) % (i + 2)))

/-- `new_board.shuffle(&mut thread_rng())`, with the generator's draws
supplied by `rng`. -/
def shuffle {α : Type} (rng : Nat → Nat) (l : List α) : List α :=
  shuffleFrom rng (l.length - 1) l

/-- `Msg::UpdateCardText { id, text }` handler (lines 140–146): if the text
is non-empty, set the text of the card stored under `id` (a missing id is a
silent no-op, as is empty text). -/
def updateCardText (id : Nat) (text : String) (m : Model) : Model :=
  if text.isEmpty then m
  else
    { m with
      words_list := m.words_list.map (fun p =>
        if p.1 = id then (p.1, { p.2 with text := some text }) else p) }

/-- `Msg::DeleteCard(id)` handler (lines 149–151): remove the entry. -/
def deleteCard (id : Nat) (m : Model) : Model :=
  { m with words_list := m.words_list.filter (fun p => p.1 ≠ id) }

/-- `Msg::GuessCard(index)` handler (lines 154–186). -/
def guessCard (index : Nat) (m : Model) : Model :=
  if m.needs_reset then m.all_face_down
  else
    match m.last with
    | some last_guessed =>
      match m.board[index]? with
      | none => m
      | some slot =>
        let just_guessed := slot.card.id
        if just_guessed = last_guessed then
          { m with
            board := m.board.map (fun card =>
              if card.card.id = just_guessed ∨ card.card.id = last_guessed then
                { card with displayed := CardState.FaceUp, matched := true }
              else card)
            last := none }
        else
          { m with
            board := m.board.set index { slot with displayed := CardState.FaceUp }
            needs_reset := true }
    | none =>
      match m.board[index]? with
      | none => m
      | some slot =>
        { m with
          last := some slot.card.id
          board := m.board.set index { slot with displayed := CardState.FaceUp } }

/-- `Msg::StartGame` handler (lines 189–220): guard on fewer than two
entries in `words_list`, build two face-down slots per card that has text
or photo, shuffle, install the board and set `game_started`. -/
def startGame (rng : Nat → Nat) (m : Model) : Model :=
  if m.words_list.length < 2 then m
  else
    let new_board : List PlayedCard :=
      (m.words_list.map Prod.snd).flatMap (fun card_pair =>
        if card_pair.text = none ∧ card_pair.photo = none then []
        else
          [{ displayed := CardState.FaceDown, matched := false, card := card_pair },
           { displayed := CardState.FaceDown, matched := false, card := card_pair }])
    { m with
      board := shuffle rng new_board
      game_started := true }

/-- `Msg::ExitGame` handler (lines 223–229): reset words, game flag, board,
pending guess and reset flag (`drop_zone_active` is not touched). -/
def exitGame (m : Model) : Model :=
  { m with
    words_list := []
    game_started := false
    board := []
    last := none
    needs_reset := false }

/-- `Msg::ResetClick` handler (lines 232–235). -/
def resetClick (m : Model) : Model :=
  m.all_face_down

/-- A card is eligible for the board iff it has at least one of text/photo
set (the negation of the `continue` condition in `StartGame`). -/
def Card.eligible (c : Card) : Prop :=
  ¬(c.text = none ∧ c.photo = none)

instance (c : Card) : Decidable c.eligible := by
  unfold Card.eligible; infer_instance

/-- The eligible cards of a deck snapshot, in iteration order. -/
def eligibleCards (words : List (Nat × Card)) : List Card :=
  (words.map Prod.snd).filter (fun c => decide c.eligible)

/-- A sequence of `Msg::GuessCard` interactions applied in order. -/
def runGuesses (idxs : List Nat) (m : Model) : Model :=
  idxs.foldl (fun acc i => guessCard i acc) m

/-! ## Concrete fixtures shared by witnesses and counterexamples -/

/-- A deck of two cards that both lack text and photo (no eligible card). -/
def twoEmptyCardsModel : Model :=
  { Model.default with
    words_list := [(1, { text := none, photo := none, id := 1 }),
                   (2, { text := none, photo := none, id := 2 })] }

/-- A face-down, unmatched slot holding a contentless card with id `n`
(card content is irrelevant to the guess protocol). -/
def plainSlot (n : Nat) : PlayedCard :=
  { card := { text := none, photo := none, id := n }
    displayed := CardState.FaceDown
    matched := false }

/-- An in-game model with three pairs on the board (ids 10, 20, 30). -/
def threePairModel : Model :=
  { Model.default with
    game_started := true
    board := [plainSlot 10, plainSlot 10, plainSlot 20, plainSlot 20,
              plainSlot 30, plainSlot 30] }

/-- `threePairModel` after a mismatched pair of guesses (slots 0 and 2):
the model is in mismatch-shown state. -/
def mismatchShownModel : Model :=
  runGuesses [0, 2] threePairModel

/-! ## C7 -/

/-- C7: `ExitGame` always yields an empty board, a cleared pending-guess
memory and reset flag, Deck-editing session state (`game_started = false`)
and an empty deck store, whatever the prior model. -/
theorem exitGame_spec (m : Model) :
    (exitGame m).board = [] ∧ (exitGame m).last = none ∧
    (exitGame m).needs_reset = false ∧ (exitGame m).game_started = false ∧
    (exitGame m).words_list = [] := by
  simp [exitGame]

/-! ## C1 -/

/-- C1 (counterexample): a deck of two contentless cards has fewer than 2
eligible cards, yet `StartGame` is not a no-op on it: it sets
`game_started`, leaving the Deck-editing state. -/
theorem startGame_two_ineligible_not_noop :
    (eligibleCards twoEmptyCardsModel.words_list).length < 2 ∧
    (startGame (fun _ => 0) twoEmptyCardsModel).game_started = true ∧
    startGame (fun _ => 0) twoEmptyCardsModel ≠ twoEmptyCardsModel := by
  decide

/-- C1 (amended): `StartGame` is a no-op when the deck snapshot holds fewer
than 2 cards in total (the guard counts all entries, eligible or not): the
whole model, in particular the Deck-editing session state, is unchanged. -/
theorem startGame_noop_of_few_cards (m : Model) (rng : Nat → Nat)
    (h : m.words_list.length < 2) : startGame rng m = m := by
  simp [startGame, h]

/-- Witness for `startGame_noop_of_few_cards` at the empty model. -/
theorem startGame_noop_of_few_cards_witness :
    Model.default.words_list.length < 2 ∧
    startGame (fun _ => 0) Model.default = Model.default :=
  ⟨by decide, startGame_noop_of_few_cards Model.default (fun _ => 0) (by decide)⟩

/-! ## C4 -/

/-- C4: in mismatch-shown state (`needs_reset = true`), a guess with any
index is only an acknowledgment: every slot (in particular both previously
mismatched ones) is set face down, so no new slot is revealed, the pending
memory and the reset flag are cleared, the deck and game flag are
untouched, and the index argument is ignored. -/
theorem guessCard_ack_spec (m : Model) (i j : Nat) (h : m.needs_reset = true) :
    (guessCard i m).board =
      m.board.map (fun c => { c with displayed := CardState.FaceDown }) ∧
    (guessCard i m).last = none ∧
    (guessCard i m).needs_reset = false ∧
    (∀ s ∈ (guessCard i m).board, s.displayed = CardState.FaceDown) ∧
    (guessCard i m).words_list = m.words_list ∧
    (guessCard i m).game_started = m.game_started ∧
    guessCard i m = guessCard j m := by
  simp only [guessCard, h, if_true, Model.all_face_down, List.mem_map, true_and, and_true]
  rintro s ⟨c, _, rfl⟩
  rfl

/-- Witness for `guessCard_ack_spec` on the concrete mismatch-shown model. -/
theorem guessCard_ack_spec_witness :
    mismatchShownModel.needs_reset = true ∧
    ((guessCard 5 mismatchShownModel).board =
      mismatchShownModel.board.map (fun c => { c with displayed := CardState.FaceDown }) ∧
    (guessCard 5 mismatchShownModel).last = none ∧
    (guessCard 5 mismatchShownModel).needs_reset = false ∧
    (∀ s ∈ (guessCard 5 mismatchShownModel).board, s.displayed = CardState.FaceDown) ∧
    (guessCard 5 mismatchShownModel).words_list = mismatchShownModel.words_list ∧
    (guessCard 5 mismatchShownModel).game_started = mismatchShownModel.game_started ∧
    guessCard 5 mismatchShownModel = guessCard 4 mismatchShownModel) :=
  ⟨by decide, guessCard_ack_spec mismatchShownModel 5 4 (by decide)⟩

/-! ## C9 -/

/-- Helper: the text-update map is the identity when no entry has key
`id`. -/
theorem map_updateText_eq_self (l : List (Nat × Card)) (id : Nat)
    (text : String) (h : ∀ p ∈ l, p.1 ≠ id) :
    l.map (fun p => if p.1 = id then (p.1, { p.2 with text := some text })
      else p) = l := by
  induction l with
  | nil => rfl
  | cons a t ih =>
    simp only [List.map_cons, if_neg (h a (List.mem_cons_self a t)),
      List.cons.injEq, true_and]
    exact ih (fun p hp => h p (List.mem_cons_of_mem a hp))

/-- Helper: looking up the updated key returns the stored card with its
text replaced. -/
theorem lookup_map_updateText_self (l : List (Nat × Card)) (id : Nat)
    (text : String) :
    (l.map (fun p => if p.1 = id then (p.1, { p.2 with text := some text })
      else p)).lookup id =
      (l.lookup id).map (fun c => { c with text := some text }) := by
  induction l with
  | nil => rfl
  | cons a t ih =>
    obtain ⟨k, c⟩ := a
    by_cases hk : k = id
    · subst hk
      have hmap : ((k, c) :: t).map (fun p =>
          if p.1 = k then (p.1, { p.2 with text := some text }) else p) =
          (k, { c with text := some text }) :: t.map (fun p =>
            if p.1 = k then (p.1, { p.2 with text := some text }) else p) := by
        simp
      rw [hmap, List.lookup_cons_self, List.lookup_cons_self]
      rfl
    · have hmap : ((k, c) :: t).map (fun p =>
          if p.1 = id then (p.1, { p.2 with text := some text }) else p) =
          (k, c) :: t.map (fun p =>
            if p.1 = id then (p.1, { p.2 with text := some text }) else p) := by
        simp [hk]
      have hbeq : (id == k) = false := by simpa using Ne.symm hk
      rw [hmap]
      simp [List.lookup, hbeq, ih]

/-- Helper: looking up any other key is unaffected by the text update. -/
theorem lookup_map_updateText_ne (l : List (Nat × Card)) (id k : Nat)
    (text : String) (hk : k ≠ id) :
    (l.map (fun p => if p.1 = id then (p.1, { p.2 with text := some text })
      else p)).lookup k = l.lookup k := by
  induction l with
  | nil => rfl
  | cons a t ih =>
    obtain ⟨k', c⟩ := a
    by_cases hk' : k' = id
    · have hmap : ((k', c) :: t).map (fun p =>
          if p.1 = id then (p.1, { p.2 with text := some text }) else p) =
          (k', { c with text := some text }) :: t.map (fun p =>
            if p.1 = id then (p.1, { p.2 with text := some text }) else p) := by
        simp [hk']
      have hbeq : (k == k') = false := by
        simpa using fun h : k = k' => hk (h.trans hk')
      rw [hmap]
      simp [List.lookup, hbeq, ih]
    · have hmap : ((k', c) :: t).map (fun p =>
          if p.1 = id then (p.1, { p.2 with text := some text }) else p) =
          (k', c) :: t.map (fun p =>
            if p.1 = id then (p.1, { p.2 with text := some text }) else p) := by
        simp [hk']
      rw [hmap]
      by_cases hkk : k' = k
      · subst hkk
        rw [List.lookup_cons_self, List.lookup_cons_self]
      · have hbeq : (k == k') = false := by simpa using Ne.symm hkk
        simp [List.lookup, hbeq, ih]

/-- C9: `UpdateCardText` replaces exactly the text of the card stored
under `id` when the text is non-empty (every other entry and every other
model field is untouched); with empty text, or when no entry has key `id`,
the whole model — in particular the store — is unchanged, so empty text
never clears existing text. -/
theorem updateCardText_spec (m : Model) (id k : Nat) (text : String) :
    updateCardText id "" m = m ∧
    ((∀ p ∈ m.words_list, p.1 ≠ id) → updateCardText id text m = m) ∧
    (text ≠ "" →
      (updateCardText id text m).words_list.lookup id =
        (m.words_list.lookup id).map (fun c => { c with text := some text }) ∧
      (k ≠ id →
        (updateCardText id text m).words_list.lookup k =
          m.words_list.lookup k) ∧
      (updateCardText id text m).board = m.board ∧
      (updateCardText id text m).game_started = m.game_started ∧
      (updateCardText id text m).last = m.last ∧
      (updateCardText id text m).needs_reset = m.needs_reset) := by
  have h0 : ("" : String).isEmpty = true := rfl
  refine ⟨by simp [updateCardText, h0], ?_, ?_⟩
  · intro h
    by_cases he : text.isEmpty <;>
      simp [updateCardText, he, map_updateText_eq_self m.words_list id text h]
  · intro ht
    have he : text.isEmpty = false := by
      cases hb : text.isEmpty
      · rfl
      · exact absurd ((String.isEmpty_iff text).1 hb) ht
    refine ⟨?_, ?_, ?_, ?_, ?_, ?_⟩
    · simp [updateCardText, he, lookup_map_updateText_self]
    · intro hk
      simp [updateCardText, he,
        lookup_map_updateText_ne m.words_list id k text hk]
    · simp [updateCardText, he]
    · simp [updateCardText, he]
    · simp [updateCardText, he]
    · simp [updateCardText, he]

/-- A deck of two cards with content, ids 5 and 6, used as a store for
text-update witnesses. -/
def textDeckModel : Model :=
  { Model.default with
    words_list := [(5, { text := some "a", photo := none, id := 5 }),
                   (6, { text := none, photo := some "p", id := 6 })] }

/-- Witness for `updateCardText_spec` on a concrete store: empty text is a
no-op, an absent id (9) is a no-op, and a real update rewrites entry 5 and
leaves entry 6 alone. -/
theorem updateCardText_spec_witness :
    updateCardText 5 "" textDeckModel = textDeckModel ∧
    updateCardText 9 "new" textDeckModel = textDeckModel ∧
    (updateCardText 5 "new" textDeckModel).words_list.lookup 5 =
      (textDeckModel.words_list.lookup 5).map
        (fun c => { c with text := some "new" }) ∧
    (updateCardText 5 "new" textDeckModel).words_list.lookup 6 =
      textDeckModel.words_list.lookup 6 :=
  ⟨(updateCardText_spec textDeckModel 5 6 "").1,
   (updateCardText_spec textDeckModel 9 6 "new").2.1 (by decide),
   ((updateCardText_spec textDeckModel 5 6 "new").2.2 (by decide)).1,
   (((updateCardText_spec textDeckModel 5 6 "new").2.2 (by decide)).2.1
     (by decide))⟩

/-! ## Guess-branch evaluation helpers -/

/-- Helper: evaluation of the match branch of `Msg::GuessCard` (the guessed
slot's card id equals the pending id). -/
theorem guessCard_match_eq (m : Model) (index lid : Nat) (slot : PlayedCard)
    (hr : m.needs_reset = false) (hl : m.last = some lid)
    (hs : m.board[index]? = some slot) (hid : slot.card.id = lid) :
    guessCard index m =
      { m with
        board := m.board.map (fun c =>
          if c.card.id = lid then
            { c with displayed := CardState.FaceUp, matched := true }
          else c)
        last := none } := by
  subst hid
  simp [guessCard, hr, hl, hs]

/-- Helper: evaluation of the mismatch branch of `Msg::GuessCard` (the
guessed slot's card id differs from the pending id). -/
theorem guessCard_mismatch_eq (m : Model) (index lid : Nat) (slot : PlayedCard)
    (hr : m.needs_reset = false) (hl : m.last = some lid)
    (hs : m.board[index]? = some slot) (hid : slot.card.id ≠ lid) :
    guessCard index m =
      { m with
        board := m.board.set index { slot with displayed := CardState.FaceUp }
        needs_reset := true } := by
  simp [guessCard, hr, hl, hs, hid]

/-- Helper: evaluation of the first-guess branch of `Msg::GuessCard` (no
pending guess, no pending reset). -/
theorem guessCard_reveal_eq (m : Model) (index : Nat) (slot : PlayedCard)
    (hr : m.needs_reset = false) (hl : m.last = none)
    (hs : m.board[index]? = some slot) :
    guessCard index m =
      { m with
        last := some slot.card.id
        board := m.board.set index { slot with displayed := CardState.FaceUp } } := by
  simp [guessCard, hr, hl, hs]

/-! ## C3 -/

/-- C3: in the one-pending-guess state, guessing an index whose card id
equals the pending id resolves as a match: every slot holding that card id
(both twins, found by scanning the whole board) becomes revealed and
matched, the pending memory clears, and the state returns to no pending
guess. -/
theorem guessCard_match_spec (m : Model) (index lid : Nat) (slot : PlayedCard)
    (hr : m.needs_reset = false) (hl : m.last = some lid)
    (hs : m.board[index]? = some slot) (hid : slot.card.id = lid) :
    (guessCard index m).board = m.board.map (fun c =>
      if c.card.id = lid then
        { c with displayed := CardState.FaceUp, matched := true }
      else c) ∧
    (∀ (k : Nat) (s : PlayedCard), m.board[k]? = some s → s.card.id = lid →
      (guessCard index m).board[k]? =
        some { s with displayed := CardState.FaceUp, matched := true }) ∧
    (guessCard index m).last = none ∧
    (guessCard index m).needs_reset = false := by
  rw [guessCard_match_eq m index lid slot hr hl hs hid]
  refine ⟨rfl, ?_, rfl, hr⟩
  intro k s hk hsid
  have hmap : (m.board.map (fun c =>
      if c.card.id = lid then
        { c with displayed := CardState.FaceUp, matched := true }
      else c))[k]? =
      some { s with displayed := CardState.FaceUp, matched := true } := by
    rw [List.getElem?_map, hk]
    simp [hsid]
  exact hmap

/-- Witness for `guessCard_match_spec`: in `threePairModel`, after guessing
slot 0 (card id 10), guessing slot 1 (also card id 10) matches both. -/
theorem guessCard_match_spec_witness :
    (runGuesses [0] threePairModel).needs_reset = false ∧
    (runGuesses [0] threePairModel).last = some 10 ∧
    (runGuesses [0] threePairModel).board[1]? = some (plainSlot 10) ∧
    ((guessCard 1 (runGuesses [0] threePairModel)).board =
      (runGuesses [0] threePairModel).board.map (fun c =>
        if c.card.id = 10 then
          { c with displayed := CardState.FaceUp, matched := true }
        else c) ∧
    (∀ (k : Nat) (s : PlayedCard),
      (runGuesses [0] threePairModel).board[k]? = some s →
      s.card.id = 10 →
      (guessCard 1 (runGuesses [0] threePairModel)).board[k]? =
        some { s with displayed := CardState.FaceUp, matched := true }) ∧
    (guessCard 1 (runGuesses [0] threePairModel)).last = none ∧
    (guessCard 1 (runGuesses [0] threePairModel)).needs_reset = false) :=
  ⟨by decide, by decide, by decide,
   guessCard_match_spec (runGuesses [0] threePairModel) 1 10 (plainSlot 10)
     (by decide) (by decide) (by decide) (by decide)⟩

/-! ## C5 -/

/-- C5: in the one-pending-guess state, guessing an index whose card id
differs from the pending id reveals only the newly clicked slot: every
other slot (in particular the still-revealed first pending slot) is
unchanged, no slot's `matched` flag changes, and the state becomes
mismatch-shown (`needs_reset = true`, blocking normal guesses until the
acknowledgment). -/
theorem guessCard_mismatch_spec (m : Model) (index lid : Nat)
    (slot : PlayedCard) (hr : m.needs_reset = false) (hl : m.last = some lid)
    (hs : m.board[index]? = some slot) (hid : slot.card.id ≠ lid) :
    (guessCard index m).board[index]? =
      some { slot with displayed := CardState.FaceUp } ∧
    (∀ k : Nat, k ≠ index → (guessCard index m).board[k]? = m.board[k]?) ∧
    (∀ (k : Nat) (s s' : PlayedCard), m.board[k]? = some s →
      (guessCard index m).board[k]? = some s' →
      s'.matched = s.matched ∧ s'.card = s.card) ∧
    (∀ (k : Nat) (s : PlayedCard), m.board[k]? = some s → s.card.id = lid →
      (guessCard index m).board[k]? = some s) ∧
    (guessCard index m).needs_reset = true := by
  have hlen : index < m.board.length := (List.getElem?_eq_some.1 hs).1
  rw [guessCard_mismatch_eq m index lid slot hr hl hs hid]
  have hset : ∀ k : Nat, k ≠ index →
      (m.board.set index { slot with displayed := CardState.FaceUp })[k]? =
        m.board[k]? := by
    intro k hk
    exact List.getElem?_set_ne (Ne.symm hk)
  have hidx : (m.board.set index
      { slot with displayed := CardState.FaceUp })[index]? =
      some { slot with displayed := CardState.FaceUp } :=
    List.getElem?_set_eq_of_lt _ hlen
  refine ⟨hidx, hset, ?_, ?_, rfl⟩
  · intro k s s' hk hk'
    by_cases hki : k = index
    · subst hki
      rw [hk, Option.some_inj] at hs
      rw [hidx, Option.some_inj] at hk'
      subst hs
      subst hk'
      exact ⟨rfl, rfl⟩
    · rw [hset k hki, hk, Option.some_inj] at hk'
      subst hk'
      exact ⟨rfl, rfl⟩
  · intro k s hk hsid
    have hki : k ≠ index := by
      intro hki
      subst hki
      rw [hk, Option.some_inj] at hs
      subst hs
      exact hid hsid
    rw [hset k hki]
    exact hk

/-- Witness for `guessCard_mismatch_spec`: in `threePairModel` with slot 0
pending (card id 10), guessing slot 2 (card id 20) is a mismatch. -/
theorem guessCard_mismatch_spec_witness :
    (runGuesses [0] threePairModel).needs_reset = false ∧
    (runGuesses [0] threePairModel).last = some 10 ∧
    (runGuesses [0] threePairModel).board[2]? = some (plainSlot 20) ∧
    ((guessCard 2 (runGuesses [0] threePairModel)).board[2]? =
      some { plainSlot 20 with displayed := CardState.FaceUp } ∧
    (∀ k : Nat, k ≠ 2 →
      (guessCard 2 (runGuesses [0] threePairModel)).board[k]? =
        (runGuesses [0] threePairModel).board[k]?) ∧
    (∀ (k : Nat) (s s' : PlayedCard),
      (runGuesses [0] threePairModel).board[k]? = some s →
      (guessCard 2 (runGuesses [0] threePairModel)).board[k]? = some s' →
      s'.matched = s.matched ∧ s'.card = s.card) ∧
    (∀ (k : Nat) (s : PlayedCard),
      (runGuesses [0] threePairModel).board[k]? = some s → s.card.id = 10 →
      (guessCard 2 (runGuesses [0] threePairModel)).board[k]? = some s) ∧
    (guessCard 2 (runGuesses [0] threePairModel)).needs_reset = true) :=
  ⟨by decide, by decide, by decide,
   guessCard_mismatch_spec (runGuesses [0] threePairModel) 2 10 (plainSlot 20)
     (by decide) (by decide) (by decide) (by decide)⟩

/-! ## C10 -/

/-- C10: from the no-pending state, guessing the same slot index twice
compares the slot's card id with itself, so it resolves as a match: every
slot holding that card id — both twins — ends revealed and matched, and the
pending memory is cleared, although only one physical slot was clicked. -/
theorem guessCard_same_index_self_match (m : Model) (j : Nat)
    (slot : PlayedCard) (hr : m.needs_reset = false) (hl : m.last = none)
    (hs : m.board[j]? = some slot) :
    (guessCard j (guessCard j m)).board =
      (m.board.set j { slot with displayed := CardState.FaceUp }).map (fun c =>
        if c.card.id = slot.card.id then
          { c with displayed := CardState.FaceUp, matched := true }
        else c) ∧
    (∀ (k : Nat) (s : PlayedCard), m.board[k]? = some s →
      s.card.id = slot.card.id →
      ∃ s', (guessCard j (guessCard j m)).board[k]? = some s' ∧
        s'.matched = true ∧ s'.displayed = CardState.FaceUp ∧
        s'.card = s.card) ∧
    (guessCard j (guessCard j m)).last = none := by
  have hlen : j < m.board.length := (List.getElem?_eq_some.1 hs).1
  have h1 := guessCard_reveal_eq m j slot hr hl hs
  have hr1 : (guessCard j m).needs_reset = false := by rw [h1]; exact hr
  have hl1 : (guessCard j m).last = some slot.card.id := by rw [h1]
  have hs1 : (guessCard j m).board[j]? =
      some { slot with displayed := CardState.FaceUp } := by
    rw [h1]
    exact List.getElem?_set_eq_of_lt _ hlen
  have h2 := guessCard_match_eq (guessCard j m) j slot.card.id
    { slot with displayed := CardState.FaceUp } hr1 hl1 hs1 rfl
  have hb1 : (guessCard j m).board =
      m.board.set j { slot with displayed := CardState.FaceUp } := by
    rw [h1]
  refine ⟨?_, ?_, ?_⟩
  · rw [h2, hb1]
  · intro k s hk hsid
    rw [h2]
    by_cases hkj : k = j
    · subst hkj
      refine ⟨{ slot with displayed := CardState.FaceUp, matched := true },
        ?_, rfl, rfl, ?_⟩
      · have : ((guessCard k m).board.map (fun c =>
            if c.card.id = slot.card.id then
              { c with displayed := CardState.FaceUp, matched := true }
            else c))[k]? =
            some { slot with displayed := CardState.FaceUp, matched := true } := by
          rw [List.getElem?_map, hs1]
          simp
        exact this
      · rw [hk, Option.some_inj] at hs
        rw [hs]
    · refine ⟨{ s with displayed := CardState.FaceUp, matched := true },
        ?_, rfl, rfl, rfl⟩
      have hkeep : (guessCard j m).board[k]? = some s := by
        rw [hb1]
        rw [List.getElem?_set_ne (Ne.symm hkj)]
        exact hk
      have : ((guessCard j m).board.map (fun c =>
          if c.card.id = slot.card.id then
            { c with displayed := CardState.FaceUp, matched := true }
          else c))[k]? =
          some { s with displayed := CardState.FaceUp, matched := true } := by
        rw [List.getElem?_map, hkeep]
        simp [hsid]
      exact this
  · rw [h2]

/-- Witness for `guessCard_same_index_self_match`: guessing slot 3 of
`threePairModel` twice matches both slots of card id 20. -/
theorem guessCard_same_index_self_match_witness :
    threePairModel.needs_reset = false ∧ threePairModel.last = none ∧
    threePairModel.board[3]? = some (plainSlot 20) ∧
    (∀ (k : Nat) (s : PlayedCard), threePairModel.board[k]? = some s →
      s.card.id = (plainSlot 20).card.id →
      ∃ s', (guessCard 3 (guessCard 3 threePairModel)).board[k]? = some s' ∧
        s'.matched = true ∧ s'.displayed = CardState.FaceUp ∧
        s'.card = s.card) :=
  ⟨by decide, by decide, by decide,
   (guessCard_same_index_self_match threePairModel 3 (plainSlot 20)
     (by decide) (by decide) (by decide)).2.1⟩

/-! ## C2 -/

/-- Helper: a single guess, whatever its branch, keeps a matched slot
matched and keeps its card. -/
theorem guessCard_preserves_matched (m : Model) (i k : Nat) (s : PlayedCard)
    (hk : m.board[k]? = some s) (hm : s.matched = true) :
    ∃ s', (guessCard i m).board[k]? = some s' ∧ s'.matched = true ∧
      s'.card = s.card := by
  by_cases hr : m.needs_reset
  · have heq : guessCard i m = m.all_face_down := by simp [guessCard, hr]
    rw [heq]
    refine ⟨{ s with displayed := CardState.FaceDown }, ?_, hm, rfl⟩
    show (m.board.map _)[k]? = _
    rw [List.getElem?_map, hk]
    rfl
  · have hrf : m.needs_reset = false := by simpa using hr
    cases hl : m.last with
    | none =>
      cases hbi : m.board[i]? with
      | none =>
        have heq : guessCard i m = m := by simp [guessCard, hrf, hl, hbi]
        rw [heq]
        exact ⟨s, hk, hm, rfl⟩
      | some slot =>
        have hlen : i < m.board.length := (List.getElem?_eq_some.1 hbi).1
        rw [guessCard_reveal_eq m i slot hrf hl hbi]
        by_cases hki : k = i
        · subst hki
          have hsl : slot = s := by
            rw [hk] at hbi
            exact (Option.some_inj.1 hbi).symm
          refine ⟨{ slot with displayed := CardState.FaceUp }, ?_, ?_, ?_⟩
          · exact List.getElem?_set_eq_of_lt _ hlen
          · rw [hsl]; exact hm
          · rw [hsl]
        · refine ⟨s, ?_, hm, rfl⟩
          show (m.board.set i _)[k]? = some s
          rw [List.getElem?_set_ne (Ne.symm hki)]
          exact hk
    | some lid =>
      cases hbi : m.board[i]? with
      | none =>
        have heq : guessCard i m = m := by simp [guessCard, hrf, hl, hbi]
        rw [heq]
        exact ⟨s, hk, hm, rfl⟩
      | some slot =>
        by_cases hsl : slot.card.id = lid
        · rw [guessCard_match_eq m i lid slot hrf hl hbi hsl]
          by_cases hcs : s.card.id = lid
          · refine ⟨{ s with displayed := CardState.FaceUp, matched := true },
              ?_, rfl, rfl⟩
            show (m.board.map _)[k]? = _
            rw [List.getElem?_map, hk]
            simp [hcs]
          · refine ⟨s, ?_, hm, rfl⟩
            show (m.board.map _)[k]? = _
            rw [List.getElem?_map, hk]
            simp [hcs]
        · have hlen : i < m.board.length := (List.getElem?_eq_some.1 hbi).1
          rw [guessCard_mismatch_eq m i lid slot hrf hl hbi hsl]
          by_cases hki : k = i
          · subst hki
            have hsl2 : slot = s := by
              rw [hk] at hbi
              exact (Option.some_inj.1 hbi).symm
            refine ⟨{ slot with displayed := CardState.FaceUp },
              List.getElem?_set_eq_of_lt _ hlen, ?_, ?_⟩
            · rw [hsl2]; exact hm
            · rw [hsl2]
          · refine ⟨s, ?_, hm, rfl⟩
            show (m.board.set i _)[k]? = some s
            rw [List.getElem?_set_ne (Ne.symm hki)]
            exact hk

/-- C2 (counterexample): the claim that a matched slot's `revealed` value
never changes again is false. In `threePairModel`, after guesses [0, 1]
slot 0 is matched and face up; the further guesses [2, 4, 3] (a reveal, a
mismatch, and the acknowledgment, none touching a matched pair
deliberately) leave slot 0 matched but flip it back to face down, because
`all_face_down` turns every slot face down. -/
theorem matched_slot_revealed_changes :
    (runGuesses [0, 1] threePairModel).board[0]?.map
        (fun s => (s.displayed, s.matched)) =
      some (CardState.FaceUp, true) ∧
    (runGuesses [0, 1, 2, 4, 3] threePairModel).board[0]?.map
        (fun s => (s.displayed, s.matched)) =
      some (CardState.FaceDown, true) := by
  decide

/-- C2 (amended): once a board slot is matched, no sequence of further
guess calls ever changes its `matched` flag or its card — but its raw
`revealed` (`displayed`) flag is not stable: the acknowledgment of a later
mismatch turns every slot face down, matched ones included (the view still
shows a slot when `revealed || matched`). -/
theorem matched_slot_stays_matched (idxs : List Nat) (m : Model) (k : Nat)
    (s : PlayedCard) (hk : m.board[k]? = some s) (hm : s.matched = true) :
    ∃ s', (runGuesses idxs m).board[k]? = some s' ∧ s'.matched = true ∧
      s'.card = s.card := by
  induction idxs generalizing m s with
  | nil => exact ⟨s, hk, hm, rfl⟩
  | cons i t ih =>
    obtain ⟨s', h1, h2, h3⟩ := guessCard_preserves_matched m i k s hk hm
    obtain ⟨s'', h1', h2', h3'⟩ := ih (guessCard i m) s' h1 h2
    exact ⟨s'', h1', h2', h3'.trans h3⟩

/-- Witness for `matched_slot_stays_matched`: slot 0 of `threePairModel`
is matched after guesses [0, 1]; any further concrete guess sequence keeps
it matched with the same card. -/
theorem matched_slot_stays_matched_witness :
    (runGuesses [0, 1] threePairModel).board[0]? = some
      { card := { text := none, photo := none, id := 10 }
        displayed := CardState.FaceUp
        matched := true } ∧
    (∃ s', (runGuesses [2, 4, 3, 2, 5]
        (runGuesses [0, 1] threePairModel)).board[0]? = some s' ∧
      s'.matched = true ∧
      s'.card = { text := none, photo := none, id := 10 }) :=
  ⟨by decide,
   matched_slot_stays_matched [2, 4, 3, 2, 5] (runGuesses [0, 1] threePairModel) 0
     { card := { text := none, photo := none, id := 10 }
       displayed := CardState.FaceUp
       matched := true } (by decide) (by decide)⟩

/-! ## Shuffle is a permutation -/

/-- Helper: overwriting position `k` (which holds `b`) with `a` and
re-prepending the old element permutes prepending the new element. -/
theorem cons_set_perm {α : Type} (t : List α) (k : Nat) (a b : α)
    (h : t[k]? = some b) : (b :: t.set k a).Perm (a :: t) := by
  induction t generalizing k with
  | nil => simp at h
  | cons c t' ih =>
    cases k with
    | zero =>
      rw [List.getElem?_cons_zero, Option.some_inj] at h
      subst h
      rw [List.set_cons_zero]
      exact List.Perm.swap a c t'
    | succ k' =>
      rw [List.getElem?_cons_succ] at h
      rw [List.set_cons_succ]
      exact (List.Perm.swap c b (t'.set k' a)).trans
        (((ih k' h).cons c).trans (List.Perm.swap a c t'))

/-- Helper: `slice::swap` permutes the list. -/
theorem swapList_perm {α : Type} (l : List α) (i j : Nat) :
    (swapList l i j).Perm l := by
  unfold swapList
  cases hi : l[i]? with
  | none => exact List.Perm.refl l
  | some a =>
    cases hj : l[j]? with
    | none => exact List.Perm.refl l
    | some b =>
      have hlen_i : i < l.length := (List.getElem?_eq_some.1 hi).1
      have htj : (l.set i b)[j]? = some b := by
        by_cases hij : i = j
        · subst hij
          exact List.getElem?_set_eq_of_lt _ hlen_i
        · rw [List.getElem?_set_ne hij]
          exact hj
      have p1 : (b :: (l.set i b).set j a).Perm (a :: l.set i b) :=
        cons_set_perm (l.set i b) j a b htj
      have p2 : (a :: l.set i b).Perm (b :: l) :=
        cons_set_perm l i b a hi
      exact (p1.trans p2).cons_inv

/-- Helper: every pass of the Fisher–Yates loop permutes the list. -/
theorem shuffleFrom_perm {α : Type} (rng : Nat → Nat) (n : Nat)
    (l : List α) : (shuffleFrom rng n l).Perm l := by
  induction n generalizing l with
  | zero => exact List.Perm.refl l
  | succ i ih =>
    exact (ih _).trans (swapList_perm l (i + 1) (rng (i + 1) % (i + 2)))

/-- `shuffle` permutes its input, whatever the draw stream. -/
theorem shuffle_perm {α : Type} (rng : Nat → Nat) (l : List α) :
    (shuffle rng l).Perm l :=
  shuffleFrom_perm rng (l.length - 1) l

/-! ## Board construction lemmas -/

/-- The two face-down slots `StartGame` appends for one deck card. -/
def pairSlots (c : Card) : List PlayedCard :=
  [{ displayed := CardState.FaceDown, matched := false, card := c },
   { displayed := CardState.FaceDown, matched := false, card := c }]

/-- Helper: the slot-building loop of `StartGame` equals two slots per
eligible card. -/
theorem flatMap_filter_eligible (cs : List Card) :
    (cs.flatMap (fun card_pair =>
      if card_pair.text = none ∧ card_pair.photo = none then []
      else
        [{ displayed := CardState.FaceDown, matched := false, card := card_pair },
         { displayed := CardState.FaceDown, matched := false, card := card_pair }])) =
    (cs.filter (fun c => decide c.eligible)).flatMap pairSlots := by
  induction cs with
  | nil => rfl
  | cons c t ih =>
    by_cases hc : c.text = none ∧ c.photo = none
    · have he : decide c.eligible = false :=
        decide_eq_false (fun hel => hel hc)
      simp only [List.flatMap_cons, List.filter_cons, he, if_pos hc, ih]
      simp
    · have he : decide c.eligible = true := decide_eq_true hc
      simp only [List.flatMap_cons, List.filter_cons, he, if_neg hc, ih]
      simp [pairSlots]

/-- Helper: under the `StartGame` guard, the new board is a shuffle of the
two-slots-per-eligible-card list. -/
theorem startGame_board_eq (m : Model) (rng : Nat → Nat)
    (h : ¬m.words_list.length < 2) :
    (startGame rng m).board =
      shuffle rng ((eligibleCards m.words_list).flatMap pairSlots) := by
  rw [startGame, if_neg h]
  show shuffle rng _ = _
  rw [flatMap_filter_eligible]
  rfl

/-- Helper: the pre-shuffle board has twice as many slots as cards. -/
theorem length_pairSlots_flatMap (E : List Card) :
    (E.flatMap pairSlots).length = 2 * E.length := by
  induction E with
  | nil => rfl
  | cons c t ih =>
    rw [List.flatMap_cons, List.length_append, ih]
    simp [pairSlots]
    omega

/-- Helper: slots of the pre-shuffle board are face down, unmatched, and
hold a listed card. -/
theorem mem_pairSlots_flatMap (E : List Card) (s : PlayedCard)
    (hs : s ∈ E.flatMap pairSlots) :
    s.displayed = CardState.FaceDown ∧ s.matched = false ∧ s.card ∈ E := by
  rcases List.mem_flatMap.1 hs with ⟨c, hc, hsc⟩
  rcases List.mem_cons.1 hsc with rfl | hsc'
  · exact ⟨rfl, rfl, hc⟩
  · rcases List.mem_cons.1 hsc' with rfl | hsc''
    · exact ⟨rfl, rfl, hc⟩
    · cases hsc''

/-- Helper: no slot of the pre-shuffle board holds an id absent from the
deck. -/
theorem countP_pairSlots_flatMap_zero (E : List Card) (n : Nat)
    (hn : ∀ c ∈ E, c.id ≠ n) :
    (E.flatMap pairSlots).countP (fun s => s.card.id == n) = 0 := by
  rw [List.countP_eq_zero]
  intro s hs
  rcases mem_pairSlots_flatMap E s hs with ⟨-, -, hmem⟩
  simpa using hn s.card hmem

/-- Helper: with deck-unique ids, each listed card owns exactly two slots
of the pre-shuffle board. -/
theorem countP_pairSlots_flatMap_two (E : List Card) (c : Card) (hc : c ∈ E)
    (hnodup : (E.map Card.id).Nodup) :
    (E.flatMap pairSlots).countP (fun s => s.card.id == c.id) = 2 := by
  induction E with
  | nil => cases hc
  | cons d t ih =>
    rw [List.map_cons, List.nodup_cons] at hnodup
    rw [List.flatMap_cons, List.countP_append]
    rcases List.mem_cons.1 hc with rfl | hct
    · have hzero : (t.flatMap pairSlots).countP
          (fun s => s.card.id == c.id) = 0 := by
        apply countP_pairSlots_flatMap_zero
        intro e he hein
        exact hnodup.1 (hein ▸ List.mem_map_of_mem Card.id he)
      rw [hzero]
      simp [pairSlots, List.countP_cons]
    · have hd : d.id ≠ c.id := by
        intro h
        exact hnodup.1 (h ▸ List.mem_map_of_mem Card.id hct)
      have hdz : (pairSlots d).countP (fun s => s.card.id == c.id) = 0 := by
        simp [pairSlots, List.countP_cons, hd]
      rw [hdz, ih hct hnodup.2]

/-- Helper: under the guard, the new board is a permutation of the
two-slots-per-eligible-card list. -/
theorem startGame_board_perm (m : Model) (rng : Nat → Nat)
    (h : ¬m.words_list.length < 2) :
    ((startGame rng m).board).Perm
      ((eligibleCards m.words_list).flatMap pairSlots) := by
  rw [startGame_board_eq m rng h]
  exact shuffle_perm rng _

/-! ## C6 -/

/-- C6: for a deck with at least 2 eligible cards (with the `BTreeMap`
invariants: unique keys and each card's id equal to its key), `StartGame`
builds a board of exactly twice as many slots as eligible cards, with
exactly two slots per eligible card id, every slot face down and
unmatched, and no contentless card on the board (every slot's card is
eligible). -/
theorem startGame_board_spec (m : Model) (rng : Nat → Nat)
    (hN : 2 ≤ (eligibleCards m.words_list).length)
    (hkeys : (m.words_list.map Prod.fst).Nodup)
    (hids : ∀ p ∈ m.words_list, p.2.id = p.1) :
    (startGame rng m).board.length = 2 * (eligibleCards m.words_list).length ∧
    (∀ c ∈ eligibleCards m.words_list,
      (startGame rng m).board.countP (fun s => s.card.id == c.id) = 2) ∧
    (∀ s ∈ (startGame rng m).board,
      s.displayed = CardState.FaceDown ∧ s.matched = false ∧
      s.card.eligible ∧ s.card ∈ eligibleCards m.words_list) := by
  have hguard : ¬m.words_list.length < 2 := by
    have hle : (eligibleCards m.words_list).length ≤ m.words_list.length := by
      have h1 := List.length_filter_le (fun c => decide c.eligible)
        (m.words_list.map Prod.snd)
      simpa [eligibleCards] using h1
    omega
  have hperm := startGame_board_perm m rng hguard
  have hnodup : ((eligibleCards m.words_list).map Card.id).Nodup := by
    have hsub : (eligibleCards m.words_list).Sublist
        (m.words_list.map Prod.snd) := List.filter_sublist _
    have hsub2 : ((eligibleCards m.words_list).map Card.id).Sublist
        ((m.words_list.map Prod.snd).map Card.id) := hsub.map Card.id
    have hmapeq : (m.words_list.map Prod.snd).map Card.id =
        m.words_list.map Prod.fst := by
      rw [List.map_map]
      exact List.map_congr_left (fun p hp => hids p hp)
    rw [hmapeq] at hsub2
    exact hkeys.sublist hsub2
  refine ⟨?_, ?_, ?_⟩
  · rw [hperm.length_eq, length_pairSlots_flatMap]
  · intro c hc
    rw [hperm.countP_eq]
    exact countP_pairSlots_flatMap_two _ c hc hnodup
  · intro s hs
    have hs' : s ∈ (eligibleCards m.words_list).flatMap pairSlots :=
      hperm.mem_iff.1 hs
    obtain ⟨h1, h2, h3⟩ := mem_pairSlots_flatMap _ s hs'
    have h3' : s.card ∈ (m.words_list.map Prod.snd).filter
        (fun c => decide c.eligible) := h3
    have h4 : (fun c => decide c.eligible) s.card = true :=
      (List.mem_filter.1 h3').2
    exact ⟨h1, h2, of_decide_eq_true h4, h3⟩

/-- Witness for `startGame_board_spec` on the two-card deck with content. -/
theorem startGame_board_spec_witness :
    2 ≤ (eligibleCards textDeckModel.words_list).length ∧
    ((startGame (fun _ => 0) textDeckModel).board.length =
      2 * (eligibleCards textDeckModel.words_list).length ∧
    (∀ c ∈ eligibleCards textDeckModel.words_list,
      (startGame (fun _ => 0) textDeckModel).board.countP
        (fun s => s.card.id == c.id) = 2) ∧
    (∀ s ∈ (startGame (fun _ => 0) textDeckModel).board,
      s.displayed = CardState.FaceDown ∧ s.matched = false ∧
      s.card.eligible ∧ s.card ∈ eligibleCards textDeckModel.words_list)) :=
  ⟨by decide,
   startGame_board_spec textDeckModel (fun _ => 0) (by decide) (by decide)
     (by decide)⟩

/-! ## C8 -/

/-- C8 (counterexample): with a deck of two contentless cards the game
nevertheless starts (`game_started` flips to true — the call is not a
no-op) with an empty board, so "after a successful start the Board is
non-empty" fails as stated. -/
theorem startGame_started_empty_board :
    twoEmptyCardsModel.game_started = false ∧
    (startGame (fun _ => 0) twoEmptyCardsModel).game_started = true ∧
    (startGame (fun _ => 0) twoEmptyCardsModel).board = [] := by
  decide

/-- C8 (amended): `StartGame` always leaves the Deck Store untouched
(cards are copied, not consumed); and whenever the guard passes (at least
2 cards) and at least one deck card is eligible, the resulting board is
non-empty. -/
theorem startGame_frame_spec (m : Model) (rng : Nat → Nat) :
    (startGame rng m).words_list = m.words_list ∧
    (2 ≤ m.words_list.length → (∃ p ∈ m.words_list, p.2.eligible) →
      (startGame rng m).board ≠ []) := by
  constructor
  · by_cases h : m.words_list.length < 2 <;> simp [startGame, h]
  · rintro hlen ⟨p, hp, hep⟩
    have hguard : ¬m.words_list.length < 2 := by omega
    have hmem : p.2 ∈ eligibleCards m.words_list :=
      List.mem_filter.2 ⟨List.mem_map_of_mem Prod.snd hp, decide_eq_true hep⟩
    have hperm := startGame_board_perm m rng hguard
    intro hnil
    have hlen0 := hperm.length_eq
    rw [hnil, length_pairSlots_flatMap] at hlen0
    have hpos : 0 < (eligibleCards m.words_list).length :=
      List.length_pos_of_mem hmem
    simp only [List.length_nil] at hlen0
    omega

/-- Witness for `startGame_frame_spec` on the two-card deck with content. -/
theorem startGame_frame_spec_witness :
    (startGame (fun _ => 0) textDeckModel).words_list =
      textDeckModel.words_list ∧
    2 ≤ textDeckModel.words_list.length ∧
    (∃ p ∈ textDeckModel.words_list, p.2.eligible) ∧
    (startGame (fun _ => 0) textDeckModel).board ≠ [] :=
  ⟨(startGame_frame_spec textDeckModel (fun _ => 0)).1, by decide, by decide,
   (startGame_frame_spec textDeckModel (fun _ => 0)).2 (by decide) (by decide)⟩
